import Mathlib

/-!
Shallow embedding of the load-test statistics engine of `src/app.py`
(Flask load-testing app): the `LoadTestResult` aggregate and its derived
metric accessors, the locked per-request update performed by
`simulate_user`, the orchestration skeleton of `run_load_test`, the
bounded history deque (`deque(maxlen=50)`) and the aggregate metrics
report of `get_performance_metrics`.

Numeric conventions: Python floats (latencies in milliseconds, the
percentile fractions 0.95 / 0.99, timestamps) are embedded as rationals
`ℚ`; Python `int(x)` on the nonnegative products involved is `Int.floor`;
request counters are `ℕ`; timestamps are `Option ℚ` (seconds), `none`
standing for Python `None`.
-/

namespace SpusLoadTest

/-- `LoadTestResult.__init__` state (app.py lines 21-30): counters,
latency list, optional timestamps, and the two input parameters. -/
structure LoadTestResult where
  total_requests : ℕ
  successful_requests : ℕ
  failed_requests : ℕ
  response_times : List ℚ
  start_time : Option ℚ
  end_time : Option ℚ
  concurrent_users : ℤ
  test_duration : ℤ
deriving Repr, DecidableEq

/-- The freshly constructed result: zero counters, empty latency list,
absent timestamps (app.py lines 22-30). -/
def initResult : LoadTestResult :=
  { total_requests := 0
    successful_requests := 0
    failed_requests := 0
    response_times := []
    start_time := none
    end_time := none
    concurrent_users := 0
    test_duration := 0 }

/-- `avg_response_time` property (app.py lines 50-52):
`sum(times)/len(times)` if nonempty else `0`. -/
def avg_response_time (r : LoadTestResult) : ℚ :=
  if r.response_times = [] then 0
  else r.response_times.sum / r.response_times.length

/-- `min_response_time` property (app.py lines 54-56): Python
`min(times)` if nonempty else `0`. -/
def min_response_time (r : LoadTestResult) : ℚ :=
  match r.response_times with
  | [] => 0
  | x :: xs => xs.foldl min x

/-- `max_response_time` property (app.py lines 58-60): Python
`max(times)` if nonempty else `0`. -/
def max_response_time (r : LoadTestResult) : ℚ :=
  match r.response_times with
  | [] => 0
  | x :: xs => xs.foldl max x

/-- The index used by the percentile accessors:
`int(len(sorted_times) * p)`, i.e. `⌊n * p⌋` for the nonnegative
products involved. -/
def percentileIndex (n : ℕ) (p : ℚ) : ℤ := ⌊(n : ℚ) * p⌋

/-- `p95_response_time` property (app.py lines 62-68): `0` on the empty
list, otherwise sort ascending and index at `int(len * 0.95)`. -/
def p95_response_time (r : LoadTestResult) : ℚ :=
  if r.response_times = [] then 0
  else
    let sorted_times := r.response_times.insertionSort (· ≤ ·)
    sorted_times.getD (percentileIndex sorted_times.length (95/100)).toNat 0

/-- `p99_response_time` property (app.py lines 70-76): `0` on the empty
list, otherwise sort ascending and index at `int(len * 0.99)`. -/
def p99_response_time (r : LoadTestResult) : ℚ :=
  if r.response_times = [] then 0
  else
    let sorted_times := r.response_times.insertionSort (· ≤ ·)
    sorted_times.getD (percentileIndex sorted_times.length (99/100)).toNat 0

/-- `success_rate` property (app.py lines 78-80):
`successful/total*100` if `total > 0` else `0`. -/
def success_rate (r : LoadTestResult) : ℚ :=
  if 0 < r.total_requests then
    (r.successful_requests : ℚ) / (r.total_requests : ℚ) * 100
  else 0

/-- `requests_per_second` property (app.py lines 82-87): `0` when either
timestamp is absent or `total_requests == 0`; otherwise `total/duration`
when the wall-clock span is positive, else `0`. -/
def requests_per_second (r : LoadTestResult) : ℚ :=
  match r.start_time, r.end_time with
  | some s, some e =>
      if r.total_requests = 0 then 0
      else
        let duration := e - s
        if 0 < duration then (r.total_requests : ℚ) / duration else 0
  | _, _ => 0

/-- Outcome of one virtual-user request in `simulate_user`
(app.py lines 145-192): an HTTP response with a status code, a
`requests.exceptions.Timeout`, or any other transport-level exception. -/
inductive RequestOutcome where
  | response (status : ℕ)
  | timeout
  | transportError
deriving Repr, DecidableEq

/-- The single locked update `simulate_user` performs on the shared
result (app.py lines 168-174, 179-182, 188-191): increment
`total_requests`; on a response, increment `successful_requests` iff the
status code is exactly 200 and `failed_requests` otherwise; on timeout
or transport error increment `failed_requests`; append the measured
latency. -/
def recordOutcome (r : LoadTestResult) (o : RequestOutcome) (latency : ℚ) :
    LoadTestResult :=
  match o with
  | .response status =>
      { r with
        total_requests := r.total_requests + 1
        successful_requests :=
          if status = 200 then r.successful_requests + 1
          else r.successful_requests
        failed_requests :=
          if status = 200 then r.failed_requests
          else r.failed_requests + 1
        response_times := r.response_times ++ [latency] }
  | .timeout =>
      { r with
        total_requests := r.total_requests + 1
        failed_requests := r.failed_requests + 1
        response_times := r.response_times ++ [latency] }
  | .transportError =>
      { r with
        total_requests := r.total_requests + 1
        failed_requests := r.failed_requests + 1
        response_times := r.response_times ++ [latency] }

/-- The sequence of locked updates applied to the shared result over a
run: one `recordOutcome` per completed virtual-user task, in completion
order. -/
def runUpdates (r : LoadTestResult) (events : List (RequestOutcome × ℚ)) :
    LoadTestResult :=
  events.foldl (fun acc e => recordOutcome acc e.1 e.2) r

/-- `run_load_test` orchestration (app.py lines 129-221): build a fresh
result with `start_time = now` and the input parameters, apply one
locked `recordOutcome` per virtual-user task that completes within the
wait window (`events`, at most one per spawned thread), then set
`end_time = now`.  The spawning of `range(users)` threads is reflected
by the side condition `events.length ≤ users.toNat` imposed where
needed. -/
def run_load_test (users duration : ℤ) (startT finishT : ℚ)
    (events : List (RequestOutcome × ℚ)) : LoadTestResult :=
  let r0 := { initResult with
                start_time := some startT
                concurrent_users := users
                test_duration := duration }
  let r1 := runUpdates r0 events
  { r1 with end_time := some finishT }

/-- The cross-field invariant of the shared result (spec §3):
`total_requests == successful_requests + failed_requests` and
`len(response_times) == total_requests`. -/
def counterInvariant (r : LoadTestResult) : Prop :=
  r.total_requests = r.successful_requests + r.failed_requests ∧
  r.response_times.length = r.total_requests

instance (r : LoadTestResult) : Decidable (counterInvariant r) := by
  unfold counterInvariant; infer_instance

/-- Capacity of the history deque: `deque(maxlen=50)` (app.py line 19). -/
def HISTORY_CAP : ℕ := 50

/-- `test_history.append(result.to_dict())` (app.py line 215) on a
`deque(maxlen=50)`: append at the right, and when the length would
exceed the capacity, discard from the left (oldest first). -/
def historyAppend {α : Type} (h : List α) (x : α) : List α :=
  let h2 := h ++ [x]
  if HISTORY_CAP < h2.length then h2.drop (h2.length - HISTORY_CAP) else h2

/-- The fields of a stored `result.to_dict()` snapshot that
`get_performance_metrics` reads (app.py lines 236-242). -/
structure Snapshot where
  success_rate : ℚ
  avg_response_time : ℚ
  requests_per_second : ℚ
  total_requests : ℕ
  successful_requests : ℕ
  failed_requests : ℕ
deriving Repr, DecidableEq

/-- The summary object built by `get_performance_metrics`
(app.py lines 235-243). -/
structure PerformanceMetrics where
  total_tests : ℕ
  avg_success_rate : ℚ
  avg_response_time : ℚ
  avg_throughput : ℚ
  total_requests : ℕ
  total_successful : ℕ
  total_failed : ℕ
deriving Repr, DecidableEq

/-- `get_performance_metrics` (app.py lines 228-245): empty history
returns the empty object `{}` (modelled as `none`); otherwise the count
of stored runs, per-field arithmetic means and per-field grand totals. -/
def get_performance_metrics (h : List Snapshot) : Option PerformanceMetrics :=
  if h = [] then none
  else some
    { total_tests := h.length
      avg_success_rate := (h.map Snapshot.success_rate).sum / (h.length : ℚ)
      avg_response_time := (h.map Snapshot.avg_response_time).sum / (h.length : ℚ)
      avg_throughput := (h.map Snapshot.requests_per_second).sum / (h.length : ℚ)
      total_requests := (h.map Snapshot.total_requests).sum
      total_successful := (h.map Snapshot.successful_requests).sum
      total_failed := (h.map Snapshot.failed_requests).sum }

/-- A concrete result with 1 success out of 2 requests, used to
instantiate range statements. -/
def halfSuccessResult : LoadTestResult :=
  { initResult with total_requests := 2, successful_requests := 1 }

/-- A concrete result with 4 requests over the wall-clock span from 0 to
2 seconds, used to instantiate the throughput statements. -/
def spanResult : LoadTestResult :=
  { initResult with total_requests := 4, start_time := some 0, end_time := some 2 }

/-- The five-element latency sequence used as the spec's worked
percentile example. -/
def exampleTimes : List ℚ := [10, 20, 30, 40, 50]

/-- A result holding the example latency sequence. -/
def exampleResult : LoadTestResult :=
  { initResult with response_times := exampleTimes }

/-- A concrete stored snapshot used to instantiate the aggregate
metrics statements. -/
def exampleSnapshot : Snapshot :=
  { success_rate := 100, avg_response_time := 20, requests_per_second := 2,
    total_requests := 4, successful_requests := 4, failed_requests := 0 }

/-! ### Helper lemmas on the percentile index -/

lemma percentileIndex_nonneg (n : ℕ) (p : ℚ) (hp : 0 ≤ p) :
    0 ≤ percentileIndex n p :=
  Int.floor_nonneg.mpr (mul_nonneg (Nat.cast_nonneg n) hp)

lemma percentileIndex_lt (n : ℕ) (p : ℚ) (hn : 0 < n) (hp1 : p < 1) :
    percentileIndex n p < (n : ℤ) := by
  unfold percentileIndex
  have hnq : (0:ℚ) < (n:ℚ) := by exact_mod_cast hn
  have hlt : (n:ℚ) * p < ((n : ℤ) : ℚ) := by
    push_cast
    calc (n:ℚ) * p < (n:ℚ) * 1 := mul_lt_mul_of_pos_left hp1 hnq
      _ = (n:ℚ) := mul_one _
  exact Int.floor_lt.mpr hlt

lemma percentileIndex_toNat_lt (n : ℕ) (p : ℚ) (hn : 0 < n) (hp1 : p < 1) :
    (percentileIndex n p).toNat < n := by
  have := percentileIndex_lt n p hn hp1
  omega

/-! ### Helper lemma on the bounded history -/

/-- Folding `historyAppend` from the empty store keeps exactly the last
`HISTORY_CAP` appended entries, in insertion order. -/
lemma foldl_historyAppend_from_nil {α : Type} (xs : List α) :
    List.foldl historyAppend [] xs = xs.drop (xs.length - HISTORY_CAP) := by
  induction xs using List.reverseRecOn with
  | nil => rfl
  | append_singleton xs x ih =>
      rw [List.foldl_append, List.foldl_cons, List.foldl_nil, ih]
      simp only [historyAppend, HISTORY_CAP, List.length_append,
        List.length_drop, List.length_singleton]
      by_cases h : xs.length < 50
      · have h1 : xs.length - 50 = 0 := by omega
        have h2 : xs.length + 1 - 50 = 0 := by omega
        rw [h1, h2, List.drop_zero, List.drop_zero, if_neg (by omega)]
      · have h1 : xs.length - (xs.length - 50) + 1 = 51 := by omega
        rw [h1, if_pos (by omega)]
        have h2 : (51 : ℕ) - 50 = 1 := by omega
        rw [h2, List.drop_append_of_le_length
          (by simp only [List.length_drop]; omega)]
        rw [List.drop_drop, List.drop_append_of_le_length (by omega)]
        have h3 : xs.length - 50 + 1 = xs.length + 1 - 50 := by omega
        rw [h3]

/-! ### Helper lemmas on the locked per-request update -/

lemma recordOutcome_total_requests (r : LoadTestResult) (o : RequestOutcome) (l : ℚ) :
    (recordOutcome r o l).total_requests = r.total_requests + 1 := by
  cases o <;> rfl

lemma recordOutcome_response_times (r : LoadTestResult) (o : RequestOutcome) (l : ℚ) :
    (recordOutcome r o l).response_times = r.response_times ++ [l] := by
  cases o <;> rfl

lemma recordOutcome_counters (r : LoadTestResult) (o : RequestOutcome) (l : ℚ) :
    ((recordOutcome r o l).successful_requests = r.successful_requests + 1 ∧
     (recordOutcome r o l).failed_requests = r.failed_requests) ∨
    ((recordOutcome r o l).successful_requests = r.successful_requests ∧
     (recordOutcome r o l).failed_requests = r.failed_requests + 1) := by
  cases o with
  | response status =>
      by_cases h : status = 200
      · left; constructor <;> simp [recordOutcome, h]
      · right; constructor <;> simp [recordOutcome, h]
  | timeout => right; exact ⟨rfl, rfl⟩
  | transportError => right; exact ⟨rfl, rfl⟩

lemma counterInvariant_recordOutcome {r : LoadTestResult} (h : counterInvariant r)
    (o : RequestOutcome) (l : ℚ) : counterInvariant (recordOutcome r o l) := by
  obtain ⟨h1, h2⟩ := h
  constructor
  · rcases recordOutcome_counters r o l with ⟨hs, hf⟩ | ⟨hs, hf⟩ <;>
      rw [recordOutcome_total_requests, hs, hf] <;> omega
  · rw [recordOutcome_total_requests, recordOutcome_response_times,
      List.length_append, h2, List.length_singleton]

lemma counterInvariant_runUpdates {r : LoadTestResult} (h : counterInvariant r)
    (events : List (RequestOutcome × ℚ)) : counterInvariant (runUpdates r events) := by
  induction events generalizing r with
  | nil => exact h
  | cons e es ih =>
      simp only [runUpdates, List.foldl_cons]
      exact ih (counterInvariant_recordOutcome h e.1 e.2)

/-! ### Helper lemmas on degenerate (empty) inputs -/

lemma avg_response_time_of_empty {r : LoadTestResult} (h : r.response_times = []) :
    avg_response_time r = 0 := by
  simp [avg_response_time, h]

lemma min_response_time_of_empty {r : LoadTestResult} (h : r.response_times = []) :
    min_response_time r = 0 := by
  unfold min_response_time
  rw [h]

lemma max_response_time_of_empty {r : LoadTestResult} (h : r.response_times = []) :
    max_response_time r = 0 := by
  unfold max_response_time
  rw [h]

lemma p95_response_time_of_empty {r : LoadTestResult} (h : r.response_times = []) :
    p95_response_time r = 0 := by
  simp [p95_response_time, h]

lemma p99_response_time_of_empty {r : LoadTestResult} (h : r.response_times = []) :
    p99_response_time r = 0 := by
  simp [p99_response_time, h]

lemma requests_per_second_of_start_none {r : LoadTestResult} (h : r.start_time = none) :
    requests_per_second r = 0 := by
  cases he : r.end_time <;> simp [requests_per_second, h, he]

lemma requests_per_second_of_end_none {r : LoadTestResult} (h : r.end_time = none) :
    requests_per_second r = 0 := by
  cases hs : r.start_time <;> simp [requests_per_second, h, hs]

lemma requests_per_second_of_total_zero {r : LoadTestResult}
    (h : r.total_requests = 0) : requests_per_second r = 0 := by
  cases hs : r.start_time <;> cases he : r.end_time <;>
    simp [requests_per_second, hs, he, h]

/-! ### Helper lemmas for the ordering of derived metrics -/

lemma foldl_min_le : ∀ (xs : List ℚ) (x y : ℚ), y ∈ x :: xs → xs.foldl min x ≤ y := by
  intro xs
  induction xs with
  | nil =>
      intro x y hy
      simp only [List.mem_singleton] at hy
      simp [hy]
  | cons a as ih =>
      intro x y hy
      rw [List.foldl_cons]
      rcases List.mem_cons.mp hy with h | h
      · rw [h]
        exact le_trans (ih (min x a) (min x a) (List.mem_cons_self _ _))
          (min_le_left _ _)
      · rcases List.mem_cons.mp h with h' | h'
        · rw [h']
          exact le_trans (ih (min x a) (min x a) (List.mem_cons_self _ _))
            (min_le_right _ _)
        · exact ih (min x a) y (List.mem_cons_of_mem _ h')

lemma le_foldl_max : ∀ (xs : List ℚ) (x y : ℚ), y ∈ x :: xs → y ≤ xs.foldl max x := by
  intro xs
  induction xs with
  | nil =>
      intro x y hy
      simp only [List.mem_singleton] at hy
      simp [hy]
  | cons a as ih =>
      intro x y hy
      rw [List.foldl_cons]
      rcases List.mem_cons.mp hy with h | h
      · rw [h]
        exact le_trans (le_max_left _ _)
          (ih (max x a) (max x a) (List.mem_cons_self _ _))
      · rcases List.mem_cons.mp h with h' | h'
        · rw [h']
          exact le_trans (le_max_right _ _)
            (ih (max x a) (max x a) (List.mem_cons_self _ _))
        · exact ih (max x a) y (List.mem_cons_of_mem _ h')

lemma foldl_min_le_sum_div (x : ℚ) (xs : List ℚ) :
    xs.foldl min x ≤ (x :: xs).sum / ((x :: xs).length : ℚ) := by
  have hn : (0:ℚ) < ((x :: xs).length : ℚ) := by
    exact_mod_cast List.length_pos.mpr (List.cons_ne_nil x xs)
  rw [le_div_iff₀ hn]
  have hb := List.card_nsmul_le_sum (x :: xs) (xs.foldl min x)
    (fun y hy => foldl_min_le xs x y hy)
  calc xs.foldl min x * ((x :: xs).length : ℚ)
      = ((x :: xs).length : ℚ) * xs.foldl min x := mul_comm _ _
    _ = (x :: xs).length • xs.foldl min x := (nsmul_eq_mul _ _).symm
    _ ≤ (x :: xs).sum := hb

lemma sum_div_le_foldl_max (x : ℚ) (xs : List ℚ) :
    (x :: xs).sum / ((x :: xs).length : ℚ) ≤ xs.foldl max x := by
  have hn : (0:ℚ) < ((x :: xs).length : ℚ) := by
    exact_mod_cast List.length_pos.mpr (List.cons_ne_nil x xs)
  rw [div_le_iff₀ hn]
  have hb := List.sum_le_card_nsmul (x :: xs) (xs.foldl max x)
    (fun y hy => le_foldl_max xs x y hy)
  calc (x :: xs).sum
      ≤ (x :: xs).length • xs.foldl max x := hb
    _ = ((x :: xs).length : ℚ) * xs.foldl max x := nsmul_eq_mul _ _
    _ = xs.foldl max x * ((x :: xs).length : ℚ) := mul_comm _ _

lemma sorted_getD_percentile_le (l : List ℚ) (hne : l ≠ []) :
    (l.insertionSort (· ≤ ·)).getD
        (percentileIndex (l.insertionSort (· ≤ ·)).length (95/100)).toNat 0 ≤
    (l.insertionSort (· ≤ ·)).getD
        (percentileIndex (l.insertionSort (· ≤ ·)).length (99/100)).toNat 0 := by
  set s := l.insertionSort (· ≤ ·) with hs_def
  have hsorted : s.Sorted (· ≤ ·) := List.sorted_insertionSort _ l
  have hn : 0 < s.length := by
    rw [hs_def, List.length_insertionSort]
    exact List.length_pos.mpr hne
  have h95 : (percentileIndex s.length (95/100)).toNat < s.length :=
    percentileIndex_toNat_lt s.length (95/100) hn (by norm_num)
  have h99 : (percentileIndex s.length (99/100)).toNat < s.length :=
    percentileIndex_toNat_lt s.length (99/100) hn (by norm_num)
  have hle : (percentileIndex s.length (95/100)).toNat ≤
      (percentileIndex s.length (99/100)).toNat := by
    apply Int.toNat_le_toNat
    simp only [percentileIndex]
    exact Int.floor_le_floor
      (mul_le_mul_of_nonneg_left (by norm_num) (Nat.cast_nonneg _))
  rw [List.getD_eq_getElem s 0 h95, List.getD_eq_getElem s 0 h99]
  have hrel := hsorted.rel_get_of_le
    (a := ⟨_, h95⟩) (b := ⟨_, h99⟩) (Fin.mk_le_mk.mpr hle)
  simpa [List.get_eq_getElem] using hrel

/-- Claim C1: each locked per-request update is one atomic step that
increments `total_requests` by 1, increments exactly one of
`successful_requests` / `failed_requests` by 1, and appends exactly one
latency value; consequently every result reachable by these updates
from the fresh state — in particular every finalized `run_load_test`
result — satisfies `total_requests = successful_requests +
failed_requests` and `len(response_times) = total_requests`. -/
theorem c1_atomic_update_and_invariant :
    (∀ (r : LoadTestResult) (o : RequestOutcome) (l : ℚ),
        (recordOutcome r o l).total_requests = r.total_requests + 1 ∧
        (recordOutcome r o l).response_times = r.response_times ++ [l] ∧
        (((recordOutcome r o l).successful_requests = r.successful_requests + 1 ∧
          (recordOutcome r o l).failed_requests = r.failed_requests) ∨
         ((recordOutcome r o l).successful_requests = r.successful_requests ∧
          (recordOutcome r o l).failed_requests = r.failed_requests + 1))) ∧
    (∀ events : List (RequestOutcome × ℚ),
        counterInvariant (runUpdates initResult events)) ∧
    (∀ (users duration : ℤ) (startT finishT : ℚ)
        (events : List (RequestOutcome × ℚ)),
        counterInvariant (run_load_test users duration startT finishT events)) := by
  refine ⟨fun r o l => ⟨recordOutcome_total_requests r o l,
    recordOutcome_response_times r o l, recordOutcome_counters r o l⟩, ?_, ?_⟩
  · exact fun events => counterInvariant_runUpdates ⟨rfl, rfl⟩ events
  · intro users duration startT finishT events
    exact counterInvariant_runUpdates (r := { initResult with
      start_time := some startT, concurrent_users := users,
      test_duration := duration }) ⟨rfl, rfl⟩ events

/-- Claim C10: a request that receives an HTTP response is classified a
success iff the status code is exactly 200; any other status code
increments `failed_requests`, and in both cases the latency is appended
and `total_requests` is incremented. -/
theorem c10_success_iff_status_200 :
    ∀ (r : LoadTestResult) (status : ℕ) (latency : ℚ),
      ((recordOutcome r (RequestOutcome.response status) latency).successful_requests
          = r.successful_requests + 1 ↔ status = 200) ∧
      ((recordOutcome r (RequestOutcome.response status) latency).failed_requests
          = r.failed_requests + 1 ↔ ¬ status = 200) ∧
      (recordOutcome r (RequestOutcome.response status) latency).response_times
          = r.response_times ++ [latency] ∧
      (recordOutcome r (RequestOutcome.response status) latency).total_requests
          = r.total_requests + 1 := by
  intro r status latency
  by_cases h : status = 200 <;> simp [recordOutcome, h]

/-- Claim C4: whenever `successful_requests ≤ total_requests`, the
derived `success_rate` lies in `[0, 100]`, and it is `0` when
`total_requests = 0`. -/
theorem c4_success_rate_in_range :
    ∀ r : LoadTestResult, r.successful_requests ≤ r.total_requests →
      0 ≤ success_rate r ∧ success_rate r ≤ 100 ∧
      (r.total_requests = 0 → success_rate r = 0) := by
  intro r h
  unfold success_rate
  by_cases ht : 0 < r.total_requests
  · have htq : (0:ℚ) < (r.total_requests : ℚ) := by exact_mod_cast ht
    rw [if_pos ht]
    refine ⟨by positivity, ?_, fun h0 => absurd h0 (by omega)⟩
    have hle : (r.successful_requests : ℚ) / (r.total_requests : ℚ) ≤ 1 :=
      (div_le_one htq).mpr (by exact_mod_cast h)
    calc (r.successful_requests : ℚ) / (r.total_requests : ℚ) * 100
        ≤ 1 * 100 := mul_le_mul_of_nonneg_right hle (by norm_num)
      _ = 100 := by norm_num
  · rw [if_neg ht]
    exact ⟨le_refl 0, by norm_num, fun _ => rfl⟩

/-- Claim C4 witness: at a concrete result with 1 success out of 2. -/
theorem c4_success_rate_in_range_witness :
    halfSuccessResult.successful_requests ≤ halfSuccessResult.total_requests ∧
    (0 ≤ success_rate halfSuccessResult ∧
     success_rate halfSuccessResult ≤ 100) ∧
    success_rate initResult = 0 := by
  refine ⟨by decide, ?_, ?_⟩
  · have h := c4_success_rate_in_range halfSuccessResult (by decide)
    exact ⟨h.1, h.2.1⟩
  · exact (c4_success_rate_in_range initResult (by decide)).2.2 rfl

/-- Claim C5: the derived metrics are total with defined-zero fallbacks:
all five latency metrics are `0` on the empty latency sequence, and
`requests_per_second` is `0` when a timestamp is absent, when
`total_requests = 0`, or when the wall-clock span is nonpositive, and is
`total_requests / (end - start)` otherwise. -/
theorem c5_total_metrics_with_zero_fallback :
    ∀ r : LoadTestResult,
      (r.response_times = [] →
        avg_response_time r = 0 ∧ min_response_time r = 0 ∧
        max_response_time r = 0 ∧ p95_response_time r = 0 ∧
        p99_response_time r = 0) ∧
      (r.start_time = none → requests_per_second r = 0) ∧
      (r.end_time = none → requests_per_second r = 0) ∧
      (r.total_requests = 0 → requests_per_second r = 0) ∧
      (∀ s e : ℚ, r.start_time = some s → r.end_time = some e →
        e - s ≤ 0 → requests_per_second r = 0) ∧
      (∀ s e : ℚ, r.start_time = some s → r.end_time = some e →
        0 < e - s → r.total_requests ≠ 0 →
        requests_per_second r = (r.total_requests : ℚ) / (e - s)) := by
  intro r
  refine ⟨fun h => ⟨avg_response_time_of_empty h, min_response_time_of_empty h,
    max_response_time_of_empty h, p95_response_time_of_empty h,
    p99_response_time_of_empty h⟩,
    requests_per_second_of_start_none,
    requests_per_second_of_end_none,
    requests_per_second_of_total_zero, ?_, ?_⟩
  · intro s e hs he hle
    by_cases h0 : r.total_requests = 0
    · exact requests_per_second_of_total_zero h0
    · simp [requests_per_second, hs, he, h0, not_lt.mpr hle]
  · intro s e hs he hpos h0
    simp [requests_per_second, hs, he, h0, hpos]

/-- Claim C5 witness: the fallbacks at the fresh result, and the
positive branch at a result with 4 requests over a span of 2 seconds. -/
theorem c5_total_metrics_with_zero_fallback_witness :
    (avg_response_time initResult = 0 ∧ min_response_time initResult = 0 ∧
     max_response_time initResult = 0 ∧ p95_response_time initResult = 0 ∧
     p99_response_time initResult = 0) ∧
    requests_per_second initResult = 0 ∧
    requests_per_second spanResult = (4 : ℚ) / 2 := by
  refine ⟨(c5_total_metrics_with_zero_fallback initResult).1 rfl,
    (c5_total_metrics_with_zero_fallback initResult).2.1 rfl, ?_⟩
  have h := (c5_total_metrics_with_zero_fallback spanResult).2.2.2.2.2
    0 2 rfl rfl (by norm_num) (by decide)
  simpa [spanResult, initResult] using h

/-- Claim C6: `run_load_test` with `users ≤ 0` spawns no virtual users
(so no update events occur) and returns a finalized result with
`total_requests = 0`, `success_rate = 0`, `requests_per_second = 0`, and
every other derived metric equal to 0. -/
theorem c6_zero_users_degenerate_run :
    ∀ (users duration : ℤ) (startT finishT : ℚ)
      (events : List (RequestOutcome × ℚ)),
      users ≤ 0 → events.length ≤ users.toNat →
      (run_load_test users duration startT finishT events).total_requests = 0 ∧
      (run_load_test users duration startT finishT events).successful_requests = 0 ∧
      (run_load_test users duration startT finishT events).failed_requests = 0 ∧
      (run_load_test users duration startT finishT events).response_times = [] ∧
      success_rate (run_load_test users duration startT finishT events) = 0 ∧
      requests_per_second (run_load_test users duration startT finishT events) = 0 ∧
      avg_response_time (run_load_test users duration startT finishT events) = 0 ∧
      min_response_time (run_load_test users duration startT finishT events) = 0 ∧
      max_response_time (run_load_test users duration startT finishT events) = 0 ∧
      p95_response_time (run_load_test users duration startT finishT events) = 0 ∧
      p99_response_time (run_load_test users duration startT finishT events) = 0 := by
  intro users duration startT finishT events hu he
  have h0 : users.toNat = 0 := Int.toNat_of_nonpos hu
  have hev : events = [] := List.length_eq_zero.mp (by omega)
  subst hev
  exact ⟨rfl, rfl, rfl, rfl, rfl, rfl, rfl, rfl, rfl, rfl, rfl⟩

/-- Claim C6 witness: `run_load_test(users := 0, duration := 10)` with
no completed events yields zero counters and zero derived metrics. -/
theorem c6_zero_users_degenerate_run_witness :
    (0:ℤ) ≤ 0 ∧ ([] : List (RequestOutcome × ℚ)).length ≤ (0:ℤ).toNat ∧
    (run_load_test 0 10 0 1 []).total_requests = 0 ∧
    success_rate (run_load_test 0 10 0 1 []) = 0 ∧
    requests_per_second (run_load_test 0 10 0 1 []) = 0 := by
  have h := c6_zero_users_degenerate_run 0 10 0 1 [] (le_refl 0) (by decide)
  exact ⟨le_refl 0, by decide, h.1, h.2.2.2.2.1, h.2.2.2.2.2.1⟩

/-- Claim C2: the percentile accessors implement the exact
nearest-rank-without-interpolation rule — sort ascending and index at
`⌊count * p⌋` — with result `0` on the empty sequence; in particular on
`[10, 20, 30, 40, 50]` the index is `⌊5 * 0.95⌋ = ⌊5 * 0.99⌋ = 4` and
both `p95` and `p99` are `50`. -/
theorem c2_nearest_rank_percentile :
    (∀ r : LoadTestResult, r.response_times = [] →
        p95_response_time r = 0 ∧ p99_response_time r = 0) ∧
    (∀ r : LoadTestResult, r.response_times ≠ [] →
        p95_response_time r = (r.response_times.insertionSort (· ≤ ·)).getD
            (⌊(r.response_times.length : ℚ) * (95/100)⌋).toNat 0 ∧
        p99_response_time r = (r.response_times.insertionSort (· ≤ ·)).getD
            (⌊(r.response_times.length : ℚ) * (99/100)⌋).toNat 0) ∧
    percentileIndex 5 (95/100) = 4 ∧
    percentileIndex 5 (99/100) = 4 ∧
    p95_response_time exampleResult = 50 ∧
    p99_response_time exampleResult = 50 := by
  refine ⟨fun r h => ⟨p95_response_time_of_empty h, p99_response_time_of_empty h⟩,
    fun r h => ?_, by norm_num [percentileIndex], by norm_num [percentileIndex],
    ?_, ?_⟩
  · constructor <;>
      simp [p95_response_time, p99_response_time, h, percentileIndex,
        List.length_insertionSort]
  · simp [p95_response_time, exampleResult, exampleTimes, initResult,
      List.insertionSort, List.orderedInsert]
    norm_num [percentileIndex]
    decide
  · simp [p99_response_time, exampleResult, exampleTimes, initResult,
      List.insertionSort, List.orderedInsert]
    norm_num [percentileIndex]
    decide

/-- Claim C2 witness: the empty-sequence fallback at the fresh result
and the nearest-rank formula at the example sequence. -/
theorem c2_nearest_rank_percentile_witness :
    p95_response_time initResult = 0 ∧
    p95_response_time exampleResult =
      (exampleResult.response_times.insertionSort (· ≤ ·)).getD
        (⌊(exampleResult.response_times.length : ℚ) * (95/100)⌋).toNat 0 := by
  exact ⟨(c2_nearest_rank_percentile.1 initResult rfl).1,
    (c2_nearest_rank_percentile.2.1 exampleResult (by decide)).1⟩

/-- Claim C9: for every non-empty latency sequence and every `p`
strictly between 0 and 1 (so in particular for 0.95 and 0.99), the
percentile index `⌊count * p⌋` is nonnegative and strictly below the
length of the sorted sequence, so the indexing done by the percentile
accessors is in bounds. -/
theorem c9_percentile_index_in_bounds :
    ∀ (l : List ℚ) (p : ℚ), l ≠ [] → 0 < p → p < 1 →
      0 ≤ percentileIndex l.length p ∧
      (percentileIndex l.length p).toNat <
        (l.insertionSort (· ≤ ·)).length := by
  intro l p hl hp0 hp1
  have hn : 0 < l.length := List.length_pos.mpr hl
  refine ⟨percentileIndex_nonneg _ _ hp0.le, ?_⟩
  rw [List.length_insertionSort]
  exact percentileIndex_toNat_lt l.length p hn hp1

/-- Claim C9 witness: in-bounds indexing at the example sequence with
`p = 0.95`. -/
theorem c9_percentile_index_in_bounds_witness :
    exampleTimes ≠ [] ∧ (0:ℚ) < 95/100 ∧ (95/100:ℚ) < 1 ∧
    0 ≤ percentileIndex exampleTimes.length (95/100) ∧
    (percentileIndex exampleTimes.length (95/100)).toNat <
      (exampleTimes.insertionSort (· ≤ ·)).length := by
  have h := c9_percentile_index_in_bounds exampleTimes (95/100)
    (by decide) (by norm_num) (by norm_num)
  exact ⟨by decide, by norm_num, by norm_num, h.1, h.2⟩

/-- Claim C7: the history store is a strict FIFO of capacity 50 —
folding appends from the empty store keeps exactly the last 50 entries
in insertion order; in particular appending 51 results leaves exactly
50 entries with the first of the 51 evicted. -/
theorem c7_history_fifo_cap50 :
    (∀ (α : Type) (xs : List α),
        List.foldl historyAppend [] xs = xs.drop (xs.length - HISTORY_CAP)) ∧
    (∀ (α : Type) (xs : List α), xs.length = 51 →
        (List.foldl historyAppend [] xs).length = 50 ∧
        List.foldl historyAppend [] xs = xs.drop 1) := by
  refine ⟨fun α xs => foldl_historyAppend_from_nil xs, fun α xs h => ?_⟩
  have h1 : xs.length - HISTORY_CAP = 1 := by
    simp only [HISTORY_CAP]; omega
  constructor
  · rw [foldl_historyAppend_from_nil, h1, List.length_drop, h]
  · rw [foldl_historyAppend_from_nil, h1]

/-- Claim C7 witness: appending the 51 snapshots `0, …, 50` to the
empty store leaves exactly the 50 entries `1, …, 50`. -/
theorem c7_history_fifo_cap50_witness :
    (List.range 51).length = 51 ∧
    (List.foldl historyAppend [] (List.range 51)).length = 50 ∧
    List.foldl historyAppend [] (List.range 51) = (List.range 51).drop 1 := by
  have h := c7_history_fifo_cap50.2 ℕ (List.range 51) (by simp)
  exact ⟨by simp, h.1, h.2⟩

/-- Claim C8: the aggregate metrics report over a non-empty history of
`n` stored runs has `total_tests = n`, the unweighted arithmetic means
of `success_rate`, `avg_response_time` and `requests_per_second`, and
the plain sums of the three request counters; the empty history yields
the empty summary. -/
theorem c8_aggregate_metrics_report :
    get_performance_metrics [] = none ∧
    (∀ h : List Snapshot, h ≠ [] →
      ∃ m : PerformanceMetrics, get_performance_metrics h = some m ∧
        m.total_tests = h.length ∧
        m.avg_success_rate = (h.map Snapshot.success_rate).sum / (h.length : ℚ) ∧
        m.avg_response_time =
          (h.map Snapshot.avg_response_time).sum / (h.length : ℚ) ∧
        m.avg_throughput =
          (h.map Snapshot.requests_per_second).sum / (h.length : ℚ) ∧
        m.total_requests = (h.map Snapshot.total_requests).sum ∧
        m.total_successful = (h.map Snapshot.successful_requests).sum ∧
        m.total_failed = (h.map Snapshot.failed_requests).sum ∧
        m.avg_success_rate * (h.length : ℚ) =
          (h.map Snapshot.success_rate).sum) := by
  refine ⟨rfl, fun h hne => ?_⟩
  have hlen : (h.length : ℚ) ≠ 0 :=
    Nat.cast_ne_zero.mpr (by simpa [List.length_eq_zero] using hne)
  unfold get_performance_metrics
  rw [if_neg hne]
  exact ⟨_, rfl, rfl, rfl, rfl, rfl, rfl, rfl, rfl, div_mul_cancel₀ _ hlen⟩

/-- Claim C8 witness: the report over the one-element history. -/
theorem c8_aggregate_metrics_report_witness :
    get_performance_metrics [] = none ∧
    ([exampleSnapshot] : List Snapshot) ≠ [] ∧
    ∃ m : PerformanceMetrics,
      get_performance_metrics [exampleSnapshot] = some m ∧
      m.total_tests = 1 ∧ m.total_requests = 4 := by
  obtain ⟨m, hm, ht, _, _, _, hr, _⟩ :=
    c8_aggregate_metrics_report.2 [exampleSnapshot] (by simp)
  refine ⟨c8_aggregate_metrics_report.1, by simp, m, hm, ?_, ?_⟩
  · rw [ht]; rfl
  · rw [hr]; rfl

/-- Claim C3: for every non-empty latency sequence the derived metrics
satisfy `min ≤ avg ≤ max`, and the nearest-rank percentiles satisfy
`p95 ≤ p99`. -/
theorem c3_metric_ordering :
    ∀ r : LoadTestResult, r.response_times ≠ [] →
      min_response_time r ≤ avg_response_time r ∧
      avg_response_time r ≤ max_response_time r ∧
      p95_response_time r ≤ p99_response_time r := by
  intro r h
  refine ⟨?_, ?_, ?_⟩
  · cases hl : r.response_times with
    | nil => exact absurd hl h
    | cons x xs =>
        unfold min_response_time avg_response_time
        rw [hl, if_neg (List.cons_ne_nil x xs)]
        exact foldl_min_le_sum_div x xs
  · cases hl : r.response_times with
    | nil => exact absurd hl h
    | cons x xs =>
        unfold max_response_time avg_response_time
        rw [hl, if_neg (List.cons_ne_nil x xs)]
        exact sum_div_le_foldl_max x xs
  · unfold p95_response_time p99_response_time
    rw [if_neg h, if_neg h]
    exact sorted_getD_percentile_le r.response_times h

/-- Claim C3 witness: the three orderings at the example sequence
`[10, 20, 30, 40, 50]`. -/
theorem c3_metric_ordering_witness :
    exampleResult.response_times ≠ [] ∧
    min_response_time exampleResult ≤ avg_response_time exampleResult ∧
    avg_response_time exampleResult ≤ max_response_time exampleResult ∧
    p95_response_time exampleResult ≤ p99_response_time exampleResult := by
  have h := c3_metric_ordering exampleResult (by decide)
  exact ⟨by decide, h.1, h.2.1, h.2.2⟩

end SpusLoadTest
